import Mathlib

/-!
Verification of the aggregation pipeline and callbacks of `app.py`
(sales dashboard: per-product / per-seller / per-day aggregates,
indicator cards, seller ranking, seller drill-down card).

Rows of the CSV are modelled as `Venta`; line 21 of `app.py` derives the
`Ingresos` column, giving `VentaI`.  Pandas `groupby(k)[v].sum()` (which
sorts the group keys ascending) is modelled by `groupbySum`;
`sort_values(by=..., ascending=False)` by `List.insertionSort revDesc`
(pandas' sort and insertion sort are both stable); `idxmax`/`idxmin`
(first row attaining the extremum, in frame order) by `idxmaxBy`/`idxminBy`;
`rank(method='dense', ascending=False)` by `denseRank`.
Numeric columns are modelled over `Int` (the claims under study concern
exact sums, ties and comparisons, not floating-point rounding).
-/

namespace DashVentas

/-- A raw CSV row: columns Fecha, Producto, Vendedor, Unidades Vendidas,
Precio (`app.py` line 17; dates are abstracted to integers). -/
structure Venta where
  fecha : Int
  producto : String
  vendedor : String
  unidades : Int
  precio : Int
deriving DecidableEq, Repr

/-- A row after preprocessing: the derived column `Ingresos` added by
`app.py` line 21. -/
structure VentaI where
  fecha : Int
  producto : String
  vendedor : String
  unidades : Int
  precio : Int
  ingresos : Int
deriving DecidableEq, Repr

/-- Line 21: `data['Ingresos'] = data['Unidades Vendidas'] * data['Precio']`. -/
def addIngresos (v : Venta) : VentaI :=
  ⟨v.fecha, v.producto, v.vendedor, v.unidades, v.precio, v.unidades * v.precio⟩

/-- The preprocessing step applied to the whole table (lines 20-21). -/
def preprocess (d : List Venta) : List VentaI :=
  d.map addIngresos

/-- The distinct elements of a list (first occurrence kept). -/
def uniq {α : Type} [DecidableEq α] : List α → List α
  | [] => []
  | k :: ks => k :: (uniq ks).filter (fun x => decide (x ≠ k))

/-- Lexicographic comparison of code-point lists, the order pandas uses on
string group keys. -/
def lexLeNat : List Nat → List Nat → Bool
  | [], _ => true
  | _ :: _, [] => false
  | a :: as, b :: bs => if a < b then true else if b < a then false else lexLeNat as bs

/-- Ascending string order (lexicographic on code points), used for the
sorted group keys of pandas' `groupby`. -/
def strLe (a b : String) : Prop :=
  lexLeNat (a.data.map Char.toNat) (b.data.map Char.toNat) = true

instance : DecidableRel strLe :=
  fun a b =>
    inferInstanceAs (Decidable (lexLeNat (a.data.map Char.toNat) (b.data.map Char.toNat) = true))

/-- The grouped sum of column `val` over the rows whose key is `k`:
the value pandas' `groupby(key)[val].sum()` assigns to group `k`. -/
def gsum {α K : Type} [DecidableEq K] (key : α → K) (val : α → Int)
    (rows : List α) (k : K) : Int :=
  ((rows.filter (fun r => decide (key r = k))).map val).sum

/-- `rows.groupby(key)[val].sum().reset_index()`: one row per distinct key,
keys sorted ascending by `le` (pandas sorts group keys), each paired with
the summed column. -/
def groupbySum {α K : Type} [DecidableEq K] (le : K → K → Prop) [DecidableRel le]
    (key : α → K) (val : α → Int) (rows : List α) : List (K × Int) :=
  (List.insertionSort le (uniq (rows.map key))).map (fun k => (k, gsum key val rows k))

/-- The ordering used by `sort_values(by=<numeric column>, ascending=False)`
on a keyed one-column frame. -/
def revDesc {K : Type} (a b : K × Int) : Prop := b.2 ≤ a.2

instance {K : Type} : DecidableRel (revDesc (K := K)) :=
  fun a b => inferInstanceAs (Decidable (b.2 ≤ a.2))

instance {K : Type} : IsTotal (K × Int) revDesc :=
  ⟨fun a b => le_total b.2 a.2⟩

instance {K : Type} : IsTrans (K × Int) revDesc :=
  ⟨fun _ _ _ hab hbc => le_trans hbc hab⟩

/-- Line 25: `product_sales = data.groupby('Producto')['Unidades Vendidas'].sum().reset_index()`. -/
def product_sales (d : List VentaI) : List (String × Int) :=
  groupbySum strLe VentaI.producto VentaI.unidades d

/-- Lines 28-30: per-product revenue, sorted by `Ingresos` descending.
(The cosmetic `Producto_Corto` label column of line 29 is not modelled:
no claim concerns it.) -/
def ingresos_por_producto (d : List VentaI) : List (String × Int) :=
  List.insertionSort revDesc (groupbySum strLe VentaI.producto VentaI.ingresos d)

/-- Lines 33-34: per-seller revenue, sorted by `Ingresos` descending. -/
def ingresos_por_vendedor_base (d : List VentaI) : List (String × Int) :=
  List.insertionSort revDesc (groupbySum strLe VentaI.vendedor VentaI.ingresos d)

/-- `Series.rank(method='dense', ascending=False)` of value `x` within the
column `revs`: one plus the number of distinct column values strictly
greater than `x`. -/
def denseRank (revs : List Int) (x : Int) : Nat :=
  1 + ((uniq revs).filter (fun y => decide (x < y))).length

/-- Line 36: the seller revenue frame with its dense `Rank` column. -/
def ingresos_por_vendedor (d : List VentaI) : List (String × Int × Nat) :=
  (ingresos_por_vendedor_base d).map
    (fun p => (p.1, p.2, denseRank ((ingresos_por_vendedor_base d).map Prod.snd) p.2))

/-- Line 39: `daily_sales = data.groupby('Fecha')[['Unidades Vendidas', 'Ingresos']].sum()`:
one row per distinct date (ascending), with summed units and revenue. -/
def daily_sales (d : List VentaI) : List (Int × Int × Int) :=
  (List.insertionSort (· ≤ · : Int → Int → Prop) (uniq (d.map VentaI.fecha))).map
    (fun k => (k, gsum VentaI.fecha VentaI.unidades d k, gsum VentaI.fecha VentaI.ingresos d k))

/-- `frame.loc[frame[col].idxmax()]`: the first row (in frame order)
attaining the maximum of `f`; `none` on an empty frame (where pandas
raises). -/
def idxmaxBy {β : Type} (f : β → Int) : List β → Option β
  | [] => none
  | b :: bs =>
    match idxmaxBy f bs with
    | none => some b
    | some c => if f b < f c then some c else some b

/-- `frame.loc[frame[col].idxmin()]`: the first row (in frame order)
attaining the minimum of `f`; `none` on an empty frame. -/
def idxminBy {β : Type} (f : β → Int) : List β → Option β
  | [] => none
  | b :: bs =>
    match idxminBy f bs with
    | none => some b
    | some c => if f c < f b then some c else some b

/-- Line 42: `product_sales.loc[product_sales['Unidades Vendidas'].idxmax()]`. -/
def producto_mas_vendido_unidades (d : List VentaI) : Option (String × Int) :=
  idxmaxBy Prod.snd (product_sales d)

/-- Line 43: `product_sales.loc[product_sales['Unidades Vendidas'].idxmin()]`. -/
def producto_menos_vendido_unidades (d : List VentaI) : Option (String × Int) :=
  idxminBy Prod.snd (product_sales d)

/-- Line 44: `ingresos_por_producto.loc[ingresos_por_producto['Ingresos'].idxmax()]`. -/
def producto_mas_ingresos (d : List VentaI) : Option (String × Int) :=
  idxmaxBy Prod.snd (ingresos_por_producto d)

/-- Line 45: `ingresos_por_producto.loc[ingresos_por_producto['Ingresos'].idxmin()]`. -/
def producto_menos_ingresos (d : List VentaI) : Option (String × Int) :=
  idxminBy Prod.snd (ingresos_por_producto d)

/-- Attaches positional ranks `n, n+1, ...` to a (seller, revenue) list:
`frame.reset_index(drop=True); frame['Rank'] = frame.index + 1` of
lines 177-178. -/
def rankFrom (n : Nat) : List (String × Int) → List (String × Int × Nat)
  | [] => []
  | p :: ps => (p.1, p.2, n) :: rankFrom (n + 1) ps

/-- Lines 176-178, inside `update_ingresos_por_vendedor_bar`: the per-seller
revenue recomputed from `data`, sorted descending, with the positional
`Rank` column `index + 1`. -/
def ingresos_por_vendedor_ranked (d : List VentaI) : List (String × Int × Nat) :=
  rankFrom 1 (List.insertionSort revDesc (groupbySum strLe VentaI.vendedor VentaI.ingresos d))

/-- Line 97: the dropdown options, drawn from `ingresos_por_vendedor['Vendedor']`. -/
def seller_dropdown_options (d : List VentaI) : List String :=
  (ingresos_por_vendedor d).map (fun t => t.1)

/-- Line 98: the dropdown's initial value, `ingresos_por_vendedor['Vendedor'].iloc[0]`
(`none` when the frame is empty, where pandas raises). -/
def seller_dropdown_value (d : List VentaI) : Option String :=
  ((ingresos_por_vendedor d).head?).map (fun t => t.1)

/-- Line 259: `data.groupby('Vendedor')['Ingresos'].sum().mean()`, the delta
reference of the seller indicator. -/
def mean_ingresos_all_sellers (d : List VentaI) : ℚ :=
  (((groupbySum strLe VentaI.vendedor VentaI.ingresos d).map Prod.snd).sum : ℚ) /
    ((groupbySum strLe VentaI.vendedor VentaI.ingresos d).length : ℚ)

/-- The three possible children returned by `update_seller_performance_card`
(lines 245-292): the "select a seller" prompt (line 247), the
"no data available" placeholder (line 253), or the indicator-plus-table
card (lines 266-292) carrying the seller's total revenue, the delta
reference, and the per-product revenue table. -/
inductive SellerCard where
  | promptSelect : SellerCard
  | noData (seller : String) : SellerCard
  | card (seller : String) (ingresosTotales : Int) (deltaRef : ℚ)
      (productos : List (String × Int)) : SellerCard
deriving DecidableEq, Repr

/-- Lines 245-292: the seller-card callback.  `if not selected_seller`
(line 246) is modelled by the empty string being falsy; line 250 filters
the raw table to the seller's rows; line 252 returns the placeholder on an
empty filter result; otherwise lines 256-292 build the card. -/
def update_seller_performance_card (d : List VentaI) (selected_seller : String) : SellerCard :=
  if selected_seller = "" then .promptSelect
  else
    let data_vendedor := d.filter (fun r => decide (r.vendedor = selected_seller))
    if data_vendedor.isEmpty then .noData selected_seller
    else
      .card selected_seller ((data_vendedor.map VentaI.ingresos).sum)
        (mean_ingresos_all_sellers d)
        (List.insertionSort revDesc
          (groupbySum strLe VentaI.producto VentaI.ingresos data_vendedor))

/-- The outcome of the module-level data load. -/
inductive LoadResult where
  | loaded (rows : List Venta) : LoadResult
  | handledExit (msg : String) : LoadResult
  | unhandledException (msg : String) : LoadResult
deriving DecidableEq, Repr

/-- Lines 14-17: `data = pd.read_csv(download_url)` with no `try`/`except`
anywhere around it.  `fetch` is the environment: `some rows` when the
download URL yields a readable CSV, `none` when it does not (in which case
`pd.read_csv` raises and nothing in `app.py` catches it). -/
def loadData (fetch : Option (List Venta)) : LoadResult :=
  match fetch with
  | some rows => .loaded rows
  | none => .unhandledException "pd.read_csv raised; no handler in app.py"

/-- Lines 119-130: the per-product revenue bar chart renders the
module-level `ingresos_por_producto` frame computed at load. -/
def update_ingresos_por_producto_graph (d : List VentaI) : List (String × Int) :=
  ingresos_por_producto d

/-- Lines 136-147: the pie chart renders `ingresos_por_vendedor`
(values = Ingresos, names = Vendedor). -/
def update_ingresos_por_vendedor_pie (d : List VentaI) : List (String × Int) :=
  (ingresos_por_vendedor d).map (fun t => (t.1, t.2.1))

/-- Lines 153-169: the daily line chart renders the module-level
`daily_sales` frame. -/
def update_daily_sales_line (d : List VentaI) : List (Int × Int × Int) :=
  daily_sales d

/-- Lines 175-195: the ranking bar chart renders the seller revenue
recomputed inline from `data` with positional ranks. -/
def update_ingresos_por_vendedor_bar (d : List VentaI) : List (String × Int × Nat) :=
  ingresos_por_vendedor_ranked d

/-- Following the spec's words, for the refinement claim: "the aggregate
freshly recomputed from the raw table at the time of the call" — the
per-product revenue view rebuilt directly from the table. -/
def specFreshPerProductRevenue (d : List VentaI) : List (String × Int) :=
  List.insertionSort revDesc (groupbySum strLe VentaI.producto VentaI.ingresos d)

/-- Following the spec's words: the per-seller revenue view freshly
recomputed from the raw table. -/
def specFreshPerSellerRevenue (d : List VentaI) : List (String × Int) :=
  List.insertionSort revDesc (groupbySum strLe VentaI.vendedor VentaI.ingresos d)

/-- Following the spec's words: the per-day totals freshly recomputed from
the raw table. -/
def specFreshDailyTotals (d : List VentaI) : List (Int × Int × Int) :=
  (List.insertionSort (· ≤ · : Int → Int → Prop) (uniq (d.map VentaI.fecha))).map
    (fun k => (k, gsum VentaI.fecha VentaI.unidades d k, gsum VentaI.fecha VentaI.ingresos d k))

/-- The concrete three-row table of the spec's worked example
(dates are immaterial there and set to 1). -/
def exRows : List Venta :=
  [⟨1, "P1", "S1", 10, 2⟩, ⟨1, "P1", "S2", 5, 2⟩, ⟨1, "P2", "S1", 3, 5⟩]

/-- A concrete table with two sellers tied at the same total revenue. -/
def exTie : List Venta :=
  [⟨1, "P", "A", 1, 1⟩, ⟨1, "P", "B", 1, 1⟩]

/-! ### Lemmas about `uniq`, `gsum` and `groupbySum` -/

theorem mem_uniq {α : Type} [DecidableEq α] (x : α) (l : List α) : x ∈ uniq l ↔ x ∈ l := by
  induction l with
  | nil => simp [uniq]
  | cons k ks ih =>
    by_cases hxk : x = k
    · subst hxk; simp [uniq]
    · simp [uniq, List.mem_filter, hxk, ih]

theorem nodup_uniq {α : Type} [DecidableEq α] (l : List α) : (uniq l).Nodup := by
  induction l with
  | nil => simp [uniq]
  | cons k ks ih =>
    simp only [uniq]
    refine List.nodup_cons.mpr ⟨?_, List.Nodup.filter _ ih⟩
    intro hk
    have := (List.mem_filter.mp hk).2
    simp at this

theorem uniq_eq_nil_iff {α : Type} [DecidableEq α] (l : List α) : uniq l = [] ↔ l = [] := by
  cases l <;> simp [uniq]

theorem sum_map_add {α : Type} (l : List α) (f g : α → Int) :
    (l.map (fun x => f x + g x)).sum = (l.map f).sum + (l.map g).sum := by
  induction l with
  | nil => simp
  | cons a l ih => simp [ih]; ring

theorem sum_map_zero_of_not_mem {K : Type} [DecidableEq K] (ks : List K) (x : K) (v : Int)
    (hx : x ∉ ks) : (ks.map (fun k => if x = k then v else 0)).sum = 0 := by
  induction ks with
  | nil => simp
  | cons k ks ih =>
    simp only [List.mem_cons, not_or] at hx
    simp [hx.1, ih hx.2]

theorem sum_map_ite_single {K : Type} [DecidableEq K] (ks : List K) (x : K) (v : Int)
    (hnd : ks.Nodup) (hx : x ∈ ks) :
    (ks.map (fun k => if x = k then v else 0)).sum = v := by
  induction ks with
  | nil => cases hx
  | cons k ks ih =>
    rcases List.nodup_cons.mp hnd with ⟨hk, hnd'⟩
    by_cases hxk : x = k
    · subst hxk
      simp [sum_map_zero_of_not_mem ks x v hk]
    · rcases List.mem_cons.mp hx with h | h
      · exact absurd h hxk
      · simp [hxk, ih hnd' h]

theorem gsum_cons {α K : Type} [DecidableEq K] (key : α → K) (val : α → Int)
    (r : α) (rs : List α) (k : K) :
    gsum key val (r :: rs) k = (if key r = k then val r else 0) + gsum key val rs k := by
  by_cases h : key r = k <;> simp [gsum, List.filter_cons, h]

/-- Conservation of a grouped sum over any duplicate-free key list covering
all row keys. -/
theorem sum_map_gsum {α K : Type} [DecidableEq K] (key : α → K) (val : α → Int)
    (rows : List α) (ks : List K) (hnd : ks.Nodup) (hcov : ∀ r ∈ rows, key r ∈ ks) :
    (ks.map (gsum key val rows)).sum = (rows.map val).sum := by
  induction rows with
  | nil =>
    have hz : ks.map (gsum key val []) = ks.map (fun _ => (0 : Int)) :=
      List.map_congr_left (fun k _ => rfl)
    rw [hz]
    simp
  | cons r rs ih =>
    have hcov' : ∀ x ∈ rs, key x ∈ ks := fun x hx => hcov x (List.mem_cons_of_mem _ hx)
    have h1 : ks.map (gsum key val (r :: rs)) =
        ks.map (fun k => (if key r = k then val r else 0) + gsum key val rs k) := by
      apply List.map_congr_left
      intro k _
      exact gsum_cons key val r rs k
    rw [h1, sum_map_add,
      sum_map_ite_single ks (key r) (val r) hnd (hcov r (List.mem_cons_self r rs)),
      ih hcov']
    simp

/-- The summed column of `groupbySum` adds up to the raw column total:
conservation under groupby. -/
theorem sum_groupbySum {α K : Type} [DecidableEq K] (le : K → K → Prop) [DecidableRel le]
    (key : α → K) (val : α → Int) (rows : List α) :
    ((groupbySum le key val rows).map Prod.snd).sum = (rows.map val).sum := by
  have hperm : List.Perm (List.insertionSort le (uniq (rows.map key)))
      (uniq (rows.map key)) := List.perm_insertionSort le _
  have hnd : (List.insertionSort le (uniq (rows.map key))).Nodup :=
    hperm.nodup_iff.mpr (nodup_uniq _)
  have hcov : ∀ r ∈ rows, key r ∈ List.insertionSort le (uniq (rows.map key)) := by
    intro r hr
    exact hperm.mem_iff.mpr ((mem_uniq _ _).mpr (List.mem_map.mpr ⟨r, hr, rfl⟩))
  have hmap : (groupbySum le key val rows).map Prod.snd =
      (List.insertionSort le (uniq (rows.map key))).map (gsum key val rows) := by
    simp [groupbySum, List.map_map, Function.comp]
  rw [hmap]
  exact sum_map_gsum key val rows _ hnd hcov

theorem sum_ingresos_por_producto (d : List VentaI) :
    ((ingresos_por_producto d).map Prod.snd).sum = (d.map VentaI.ingresos).sum := by
  have hperm :=
    (List.perm_insertionSort revDesc
      (groupbySum strLe VentaI.producto VentaI.ingresos d)).map Prod.snd
  rw [ingresos_por_producto, hperm.sum_eq, sum_groupbySum]

theorem ingresos_por_vendedor_revenue_col (d : List VentaI) :
    (ingresos_por_vendedor d).map (fun t => t.2.1) =
      (ingresos_por_vendedor_base d).map Prod.snd := by
  simp [ingresos_por_vendedor, List.map_map, Function.comp]

theorem sum_ingresos_por_vendedor (d : List VentaI) :
    ((ingresos_por_vendedor d).map (fun t => t.2.1)).sum = (d.map VentaI.ingresos).sum := by
  rw [ingresos_por_vendedor_revenue_col]
  have hperm :=
    (List.perm_insertionSort revDesc
      (groupbySum strLe VentaI.vendedor VentaI.ingresos d)).map Prod.snd
  rw [ingresos_por_vendedor_base, hperm.sum_eq, sum_groupbySum]

theorem daily_sales_col_sum (d : List VentaI) (val : VentaI → Int)
    (proj : Int × Int × Int → Int)
    (hproj : ∀ k, proj (k, gsum VentaI.fecha VentaI.unidades d k,
      gsum VentaI.fecha VentaI.ingresos d k) = gsum VentaI.fecha val d k) :
    ((daily_sales d).map proj).sum = (d.map val).sum := by
  have hperm : List.Perm
      (List.insertionSort (· ≤ · : Int → Int → Prop) (uniq (d.map VentaI.fecha)))
      (uniq (d.map VentaI.fecha)) := List.perm_insertionSort _ _
  have hnd := hperm.nodup_iff.mpr (nodup_uniq (d.map VentaI.fecha))
  have hcov : ∀ r ∈ d, VentaI.fecha r ∈
      List.insertionSort (· ≤ · : Int → Int → Prop) (uniq (d.map VentaI.fecha)) := by
    intro r hr
    exact hperm.mem_iff.mpr ((mem_uniq _ _).mpr (List.mem_map.mpr ⟨r, hr, rfl⟩))
  have hmap : (daily_sales d).map proj =
      (List.insertionSort (· ≤ · : Int → Int → Prop) (uniq (d.map VentaI.fecha))).map
        (gsum VentaI.fecha val d) := by
    simp only [daily_sales, List.map_map]
    exact List.map_congr_left (fun k _ => hproj k)
  rw [hmap]
  exact sum_map_gsum VentaI.fecha val d _ hnd hcov

/-- C1: for every non-empty input table, the per-product revenue aggregate
sums to the raw revenue column total, and likewise the per-seller revenue
aggregate, the per-day units aggregate and the per-day revenue aggregate
each sum to the corresponding raw column total. -/
theorem claim_C1_groupby_conservation (raw : List Venta) (h : preprocess raw ≠ []) :
    ((ingresos_por_producto (preprocess raw)).map Prod.snd).sum
        = ((preprocess raw).map VentaI.ingresos).sum
      ∧ ((ingresos_por_vendedor (preprocess raw)).map (fun t => t.2.1)).sum
        = ((preprocess raw).map VentaI.ingresos).sum
      ∧ ((daily_sales (preprocess raw)).map (fun t => t.2.1)).sum
        = ((preprocess raw).map VentaI.unidades).sum
      ∧ ((daily_sales (preprocess raw)).map (fun t => t.2.2)).sum
        = ((preprocess raw).map VentaI.ingresos).sum := by
  refine ⟨sum_ingresos_por_producto _, sum_ingresos_por_vendedor _, ?_, ?_⟩
  · exact daily_sales_col_sum _ VentaI.unidades _ (fun k => rfl)
  · exact daily_sales_col_sum _ VentaI.ingresos _ (fun k => rfl)

/-- Witness for C1 at the spec's worked example. -/
theorem claim_C1_groupby_conservation_witness :
    preprocess exRows ≠ [] ∧
      (((ingresos_por_producto (preprocess exRows)).map Prod.snd).sum
          = ((preprocess exRows).map VentaI.ingresos).sum
        ∧ ((ingresos_por_vendedor (preprocess exRows)).map (fun t => t.2.1)).sum
          = ((preprocess exRows).map VentaI.ingresos).sum
        ∧ ((daily_sales (preprocess exRows)).map (fun t => t.2.1)).sum
          = ((preprocess exRows).map VentaI.unidades).sum
        ∧ ((daily_sales (preprocess exRows)).map (fun t => t.2.2)).sum
          = ((preprocess exRows).map VentaI.ingresos).sum) :=
  ⟨by decide, claim_C1_groupby_conservation exRows (by decide)⟩

/-! ### C5, C6, C3, C4 -/

/-- C5: on the spec's worked example, the pipeline yields per-product
revenue P1 ↦ 30, P2 ↦ 15, per-seller revenue S1 ↦ 35, S2 ↦ 10, and dense
seller ranks S1 ↦ 1, S2 ↦ 2. -/
theorem claim_C5_worked_example :
    ingresos_por_producto (preprocess exRows) = [("P1", 30), ("P2", 15)] ∧
      ingresos_por_vendedor (preprocess exRows) = [("S1", 35, 1), ("S2", 10, 2)] := by
  exact ⟨by decide, by decide⟩

/-- C6: every row of the preprocessed table carries a derived `Ingresos`
field equal to units sold times unit price. -/
theorem claim_C6_revenue_derivation (raw : List Venta) :
    ∀ r ∈ preprocess raw, r.ingresos = r.unidades * r.precio := by
  intro r hr
  rcases List.mem_map.mp hr with ⟨v, _, rfl⟩
  rfl

/-- Witness for C6 at the first row of the worked example. -/
theorem claim_C6_revenue_derivation_witness :
    (⟨1, "P1", "S1", 10, 2, 20⟩ : VentaI) ∈ preprocess exRows ∧
      (⟨1, "P1", "S1", 10, 2, 20⟩ : VentaI).ingresos
        = (⟨1, "P1", "S1", 10, 2, 20⟩ : VentaI).unidades *
            (⟨1, "P1", "S1", 10, 2, 20⟩ : VentaI).precio :=
  ⟨by decide, claim_C6_revenue_derivation exRows ⟨1, "P1", "S1", 10, 2, 20⟩ (by decide)⟩

/-- C3: selecting a seller (with a non-empty name, i.e. a truthy dropdown
value) for whom the table has zero records makes the seller-card callback
return the "no data available" placeholder element rather than raising. -/
theorem claim_C3_zero_records_placeholder (d : List VentaI) (s : String) (hs : s ≠ "")
    (habs : ∀ r ∈ d, r.vendedor ≠ s) :
    update_seller_performance_card d s = SellerCard.noData s := by
  have hempty : d.filter (fun r => decide (r.vendedor = s)) = [] := by
    rw [List.filter_eq_nil_iff]
    intro r hr
    simp [habs r hr]
  simp [update_seller_performance_card, hs, hempty]

/-- Witness for C3: seller "S9" has no record in the worked example. -/
theorem claim_C3_zero_records_placeholder_witness :
    (("S9" : String) ≠ "" ∧ ∀ r ∈ preprocess exRows, r.vendedor ≠ "S9") ∧
      update_seller_performance_card (preprocess exRows) "S9" = SellerCard.noData "S9" :=
  ⟨⟨by decide, by decide⟩,
    claim_C3_zero_records_placeholder (preprocess exRows) "S9" (by decide) (by decide)⟩

/-- C4 counterexample: at the concrete input "data source unavailable", the
load of lines 14-17 ends in an unhandled exception — not in the handled
print-message-and-terminate outcome the claim asserts (`app.py` contains no
handler at all around `pd.read_csv`). -/
theorem claim_C4_counterexample :
    loadData none = LoadResult.unhandledException "pd.read_csv raised; no handler in app.py" :=
  rfl

/-- C4 amended: the program handles no failure at all: no outcome of the
data load is a handled print-and-terminate exit; a failing load propagates
as an unhandled exception. -/
theorem claim_C4_amended_no_handled_failure (fetch : Option (List Venta)) (msg : String) :
    loadData fetch ≠ LoadResult.handledExit msg := by
  cases fetch <;> simp [loadData]

/-- Witness for C4's amended theorem at a concrete environment and message. -/
theorem claim_C4_amended_no_handled_failure_witness :
    loadData none ≠ LoadResult.handledExit "archivo no encontrado" :=
  claim_C4_amended_no_handled_failure none "archivo no encontrado"

/-! ### Membership and nonemptiness lemmas for `groupbySum` -/

theorem snd_of_mem_groupbySum {α K : Type} [DecidableEq K] (le : K → K → Prop)
    [DecidableRel le] (key : α → K) (val : α → Int) (rows : List α) {p : K × Int}
    (hp : p ∈ groupbySum le key val rows) : p.2 = gsum key val rows p.1 := by
  rcases List.mem_map.mp hp with ⟨k, _, rfl⟩
  rfl

theorem mem_groupbySum_of_mem_keys {α K : Type} [DecidableEq K] (le : K → K → Prop)
    [DecidableRel le] (key : α → K) (val : α → Int) (rows : List α) {w : K}
    (hw : w ∈ rows.map key) :
    (w, gsum key val rows w) ∈ groupbySum le key val rows :=
  List.mem_map.mpr
    ⟨w, (List.perm_insertionSort le _).mem_iff.mpr ((mem_uniq _ _).mpr hw), rfl⟩

theorem fst_groupbySum_mem_keys {α K : Type} [DecidableEq K] (le : K → K → Prop)
    [DecidableRel le] (key : α → K) (val : α → Int) (rows : List α) {p : K × Int}
    (hp : p ∈ groupbySum le key val rows) : p.1 ∈ rows.map key := by
  rcases List.mem_map.mp hp with ⟨k, hk, rfl⟩
  exact (mem_uniq _ _).mp ((List.perm_insertionSort le _).mem_iff.mp hk)

theorem groupbySum_ne_nil {α K : Type} [DecidableEq K] (le : K → K → Prop)
    [DecidableRel le] (key : α → K) (val : α → Int) (rows : List α) (h : rows ≠ []) :
    groupbySum le key val rows ≠ [] := by
  obtain ⟨r, hr⟩ := List.exists_mem_of_ne_nil rows h
  intro hnil
  have hmem := mem_groupbySum_of_mem_keys le key val rows (List.mem_map.mpr ⟨r, hr, rfl⟩)
  rw [hnil] at hmem
  cases hmem

theorem insertionSort_ne_nil {α : Type} (r : α → α → Prop) [DecidableRel r]
    (l : List α) (h : l ≠ []) : List.insertionSort r l ≠ [] := by
  intro hnil
  have hlen := (List.perm_insertionSort r l).length_eq
  rw [hnil] at hlen
  exact h (List.eq_nil_of_length_eq_zero hlen.symm)

theorem nodup_fst_groupbySum {α K : Type} [DecidableEq K] (le : K → K → Prop)
    [DecidableRel le] (key : α → K) (val : α → Int) (rows : List α) :
    ((groupbySum le key val rows).map Prod.fst).Nodup := by
  have h1 : (groupbySum le key val rows).map Prod.fst =
      List.insertionSort le (uniq (rows.map key)) := by
    have h2 : List.map (Prod.fst ∘ fun k => (k, gsum key val rows k))
        (List.insertionSort le (uniq (rows.map key))) =
        List.map id (List.insertionSort le (uniq (rows.map key))) :=
      List.map_congr_left (fun k _ => rfl)
    rw [groupbySum, List.map_map, h2, List.map_id]
  rw [h1]
  exact (List.perm_insertionSort le _).nodup_iff.mpr (nodup_uniq _)

/-- The head of a `revDesc`-sorted frame dominates the summed column. -/
theorem head_max_of_sorted_revDesc {K : Type} {l : List (K × Int)}
    (hs : List.Sorted revDesc l) {h0 : K × Int} (hh : l.head? = some h0) :
    ∀ p ∈ l, p.2 ≤ h0.2 := by
  cases l with
  | nil => cases hh
  | cons a t =>
    simp only [List.head?_cons, Option.some.injEq] at hh
    subst hh
    intro p hp
    rcases List.mem_cons.mp hp with rfl | hp'
    · exact le_refl _
    · exact List.rel_of_sorted_cons hs p hp'

/-! ### C10: the seller dropdown -/

/-- C10: for a non-empty table the dropdown's option list is exactly the
set of distinct seller names of the table (no duplicates), and the initial
value is a seller whose total revenue is maximal among all sellers. -/
theorem claim_C10_seller_dropdown (d : List VentaI) (h : d ≠ []) :
    (seller_dropdown_options d).Nodup ∧
      (∀ x, x ∈ seller_dropdown_options d ↔ x ∈ d.map VentaI.vendedor) ∧
      ∃ v, seller_dropdown_value d = some v ∧ v ∈ d.map VentaI.vendedor ∧
        ∀ w ∈ d.map VentaI.vendedor,
          gsum VentaI.vendedor VentaI.ingresos d w ≤ gsum VentaI.vendedor VentaI.ingresos d v := by
  have hproj : seller_dropdown_options d = (ingresos_por_vendedor_base d).map Prod.fst := by
    simp [seller_dropdown_options, ingresos_por_vendedor, List.map_map, Function.comp]
  have hperm1 : List.Perm ((ingresos_por_vendedor_base d).map Prod.fst)
      ((groupbySum strLe VentaI.vendedor VentaI.ingresos d).map Prod.fst) :=
    (List.perm_insertionSort revDesc _).map Prod.fst
  have hopts : List.Perm (seller_dropdown_options d)
      ((groupbySum strLe VentaI.vendedor VentaI.ingresos d).map Prod.fst) := by
    rw [hproj]; exact hperm1
  constructor
  · exact hopts.nodup_iff.mpr (nodup_fst_groupbySum _ _ _ _)
  constructor
  · intro x
    rw [hopts.mem_iff]
    constructor
    · intro hx
      rcases List.mem_map.mp hx with ⟨p, hp, rfl⟩
      exact fst_groupbySum_mem_keys _ _ _ _ hp
    · intro hx
      exact List.mem_map.mpr
        ⟨(x, gsum VentaI.vendedor VentaI.ingresos d x),
          mem_groupbySum_of_mem_keys _ _ _ _ hx, rfl⟩
  · -- the initial value is the head of the revenue-descending frame
    have hbne : ingresos_por_vendedor_base d ≠ [] :=
      insertionSort_ne_nil _ _ (groupbySum_ne_nil _ _ _ _ h)
    obtain ⟨h0, t, hbase⟩ := List.exists_cons_of_ne_nil hbne
    have hsorted : List.Sorted revDesc (ingresos_por_vendedor_base d) :=
      List.sorted_insertionSort revDesc _
    have hhead : (ingresos_por_vendedor_base d).head? = some h0 := by
      rw [hbase]; rfl
    have hval : seller_dropdown_value d = some h0.1 := by
      simp [seller_dropdown_value, ingresos_por_vendedor, hbase]
    have hbase' : List.insertionSort revDesc
        (groupbySum strLe VentaI.vendedor VentaI.ingresos d) = h0 :: t := hbase
    have h0mem : h0 ∈ groupbySum strLe VentaI.vendedor VentaI.ingresos d :=
      (List.perm_insertionSort revDesc _).mem_iff.mp
        (by rw [hbase']; exact List.mem_cons_self _ _)
    have h0snd : h0.2 = gsum VentaI.vendedor VentaI.ingresos d h0.1 :=
      snd_of_mem_groupbySum _ _ _ _ h0mem
    refine ⟨h0.1, hval, fst_groupbySum_mem_keys _ _ _ _ h0mem, ?_⟩
    intro w hw
    have hwmem : (w, gsum VentaI.vendedor VentaI.ingresos d w) ∈ ingresos_por_vendedor_base d :=
      (List.perm_insertionSort revDesc _).mem_iff.mpr
        (mem_groupbySum_of_mem_keys _ _ _ _ hw)
    have := head_max_of_sorted_revDesc hsorted hhead _ hwmem
    rw [h0snd] at this
    exact this

/-- Witness for C10 at the worked example. -/
theorem claim_C10_seller_dropdown_witness :
    preprocess exRows ≠ [] ∧
      ((seller_dropdown_options (preprocess exRows)).Nodup ∧
        (∀ x, x ∈ seller_dropdown_options (preprocess exRows) ↔
          x ∈ (preprocess exRows).map VentaI.vendedor) ∧
        ∃ v, seller_dropdown_value (preprocess exRows) = some v ∧
          v ∈ (preprocess exRows).map VentaI.vendedor ∧
          ∀ w ∈ (preprocess exRows).map VentaI.vendedor,
            gsum VentaI.vendedor VentaI.ingresos (preprocess exRows) w ≤
              gsum VentaI.vendedor VentaI.ingresos (preprocess exRows) v) :=
  ⟨by decide, claim_C10_seller_dropdown (preprocess exRows) (by decide)⟩

/-! ### `idxmaxBy` / `idxminBy` and C8 -/

theorem idxmaxBy_cons {β : Type} (f : β → Int) (b : β) (bs : List β) :
    idxmaxBy f (b :: bs) =
      match idxmaxBy f bs with
      | none => some b
      | some c => if f b < f c then some c else some b := rfl

theorem idxminBy_cons {β : Type} (f : β → Int) (b : β) (bs : List β) :
    idxminBy f (b :: bs) =
      match idxminBy f bs with
      | none => some b
      | some c => if f c < f b then some c else some b := rfl

/-- `idxmaxBy` returns the first row attaining the maximum: it splits the
frame as `l₁ ++ b :: l₂` with every earlier row strictly below `b` and every
row at most `b`. -/
theorem idxmaxBy_spec {β : Type} (f : β → Int) (l : List β) (h : l ≠ []) :
    ∃ b l₁ l₂, idxmaxBy f l = some b ∧ l = l₁ ++ b :: l₂ ∧
      (∀ x ∈ l₁, f x < f b) ∧ (∀ x ∈ l, f x ≤ f b) := by
  induction l with
  | nil => exact absurd rfl h
  | cons b bs ih =>
    cases bs with
    | nil =>
      refine ⟨b, [], [], rfl, rfl, ?_, ?_⟩
      · intro x hx; cases hx
      · intro x hx
        rcases List.mem_cons.mp hx with rfl | hx'
        · exact le_refl _
        · cases hx'
    | cons c cs =>
      obtain ⟨m, l₁, l₂, hm, heq, hpre, hmax⟩ := ih (by simp)
      by_cases hlt : f b < f m
      · refine ⟨m, b :: l₁, l₂, ?_, ?_, ?_, ?_⟩
        · rw [idxmaxBy_cons, hm]; simp [hlt]
        · rw [List.cons_append, ← heq]
        · intro x hx
          rcases List.mem_cons.mp hx with rfl | hx'
          · exact hlt
          · exact hpre x hx'
        · intro x hx
          rcases List.mem_cons.mp hx with rfl | hx'
          · exact le_of_lt hlt
          · exact hmax x hx'
      · refine ⟨b, [], c :: cs, ?_, rfl, ?_, ?_⟩
        · rw [idxmaxBy_cons, hm]; simp [hlt]
        · intro x hx; cases hx
        · intro x hx
          rcases List.mem_cons.mp hx with rfl | hx'
          · exact le_refl _
          · exact le_trans (hmax x hx') (not_lt.mp hlt)

/-- `idxminBy` returns the first row attaining the minimum. -/
theorem idxminBy_spec {β : Type} (f : β → Int) (l : List β) (h : l ≠ []) :
    ∃ b l₁ l₂, idxminBy f l = some b ∧ l = l₁ ++ b :: l₂ ∧
      (∀ x ∈ l₁, f b < f x) ∧ (∀ x ∈ l, f b ≤ f x) := by
  induction l with
  | nil => exact absurd rfl h
  | cons b bs ih =>
    cases bs with
    | nil =>
      refine ⟨b, [], [], rfl, rfl, ?_, ?_⟩
      · intro x hx; cases hx
      · intro x hx
        rcases List.mem_cons.mp hx with rfl | hx'
        · exact le_refl _
        · cases hx'
    | cons c cs =>
      obtain ⟨m, l₁, l₂, hm, heq, hpre, hmin⟩ := ih (by simp)
      by_cases hlt : f m < f b
      · refine ⟨m, b :: l₁, l₂, ?_, ?_, ?_, ?_⟩
        · rw [idxminBy_cons, hm]; simp [hlt]
        · rw [List.cons_append, ← heq]
        · intro x hx
          rcases List.mem_cons.mp hx with rfl | hx'
          · exact hlt
          · exact hpre x hx'
        · intro x hx
          rcases List.mem_cons.mp hx with rfl | hx'
          · exact le_of_lt hlt
          · exact hmin x hx'
      · refine ⟨b, [], c :: cs, ?_, rfl, ?_, ?_⟩
        · rw [idxminBy_cons, hm]; simp [hlt]
        · intro x hx; cases hx
        · intro x hx
          rcases List.mem_cons.mp hx with rfl | hx'
          · exact le_refl _
          · exact le_trans (not_lt.mp hlt) (hmin x hx')

theorem product_sales_ne_nil (d : List VentaI) (h : d ≠ []) : product_sales d ≠ [] :=
  groupbySum_ne_nil _ _ _ _ h

theorem ingresos_por_producto_ne_nil (d : List VentaI) (h : d ≠ []) :
    ingresos_por_producto d ≠ [] :=
  insertionSort_ne_nil _ _ (groupbySum_ne_nil _ _ _ _ h)

/-- C8: for a non-empty table, each of the four product indicator cards
shows the first row (in its frame's order) attaining the respective
extremum — product of maximal summed units, of minimal summed units, of
maximal summed revenue, of minimal summed revenue — together with that
extremal value; ties resolve to the first occurrence (all earlier rows are
strictly on the wrong side of the extremum). -/
theorem claim_C8_product_indicators (d : List VentaI) (h : d ≠ []) :
    (∃ p l₁ l₂, producto_mas_vendido_unidades d = some p ∧
        product_sales d = l₁ ++ p :: l₂ ∧ (∀ x ∈ l₁, x.2 < p.2) ∧
        ∀ q ∈ product_sales d, q.2 ≤ p.2) ∧
      (∃ p l₁ l₂, producto_menos_vendido_unidades d = some p ∧
        product_sales d = l₁ ++ p :: l₂ ∧ (∀ x ∈ l₁, p.2 < x.2) ∧
        ∀ q ∈ product_sales d, p.2 ≤ q.2) ∧
      (∃ p l₁ l₂, producto_mas_ingresos d = some p ∧
        ingresos_por_producto d = l₁ ++ p :: l₂ ∧ (∀ x ∈ l₁, x.2 < p.2) ∧
        ∀ q ∈ ingresos_por_producto d, q.2 ≤ p.2) ∧
      ∃ p l₁ l₂, producto_menos_ingresos d = some p ∧
        ingresos_por_producto d = l₁ ++ p :: l₂ ∧ (∀ x ∈ l₁, p.2 < x.2) ∧
        ∀ q ∈ ingresos_por_producto d, p.2 ≤ q.2 := by
  refine ⟨?_, ?_, ?_, ?_⟩
  · exact idxmaxBy_spec Prod.snd (product_sales d) (product_sales_ne_nil d h)
  · exact idxminBy_spec Prod.snd (product_sales d) (product_sales_ne_nil d h)
  · exact idxmaxBy_spec Prod.snd (ingresos_por_producto d) (ingresos_por_producto_ne_nil d h)
  · exact idxminBy_spec Prod.snd (ingresos_por_producto d) (ingresos_por_producto_ne_nil d h)

/-- Witness for C8 at the worked example. -/
theorem claim_C8_product_indicators_witness :
    preprocess exRows ≠ [] ∧
      ((∃ p l₁ l₂, producto_mas_vendido_unidades (preprocess exRows) = some p ∧
          product_sales (preprocess exRows) = l₁ ++ p :: l₂ ∧ (∀ x ∈ l₁, x.2 < p.2) ∧
          ∀ q ∈ product_sales (preprocess exRows), q.2 ≤ p.2) ∧
        (∃ p l₁ l₂, producto_menos_vendido_unidades (preprocess exRows) = some p ∧
          product_sales (preprocess exRows) = l₁ ++ p :: l₂ ∧ (∀ x ∈ l₁, p.2 < x.2) ∧
          ∀ q ∈ product_sales (preprocess exRows), p.2 ≤ q.2) ∧
        (∃ p l₁ l₂, producto_mas_ingresos (preprocess exRows) = some p ∧
          ingresos_por_producto (preprocess exRows) = l₁ ++ p :: l₂ ∧ (∀ x ∈ l₁, x.2 < p.2) ∧
          ∀ q ∈ ingresos_por_producto (preprocess exRows), q.2 ≤ p.2) ∧
        ∃ p l₁ l₂, producto_menos_ingresos (preprocess exRows) = some p ∧
          ingresos_por_producto (preprocess exRows) = l₁ ++ p :: l₂ ∧ (∀ x ∈ l₁, p.2 < x.2) ∧
          ∀ q ∈ ingresos_por_producto (preprocess exRows), p.2 ≤ q.2) :=
  ⟨by decide, claim_C8_product_indicators (preprocess exRows) (by decide)⟩

/-! ### C9: seller-card conservation -/

/-- C9: for every seller present in the table (with a truthy, i.e.
non-empty, name), the callback returns the card, and the per-product
revenues listed in the card's table sum exactly to the total revenue shown
in the card's indicator. -/
theorem claim_C9_seller_card_conservation (d : List VentaI) (s : String) (hs : s ≠ "")
    (hmem : s ∈ d.map VentaI.vendedor) :
    ∃ tot ref prods,
      update_seller_performance_card d s = SellerCard.card s tot ref prods ∧
        (prods.map Prod.snd).sum = tot := by
  obtain ⟨r, hr, hv⟩ := List.mem_map.mp hmem
  have hne : d.filter (fun x => decide (x.vendedor = s)) ≠ [] := by
    refine List.ne_nil_of_mem (a := r) ?_
    exact List.mem_filter.mpr ⟨hr, by simp [hv]⟩
  refine ⟨((d.filter (fun x => decide (x.vendedor = s))).map VentaI.ingresos).sum,
    mean_ingresos_all_sellers d,
    List.insertionSort revDesc (groupbySum strLe VentaI.producto VentaI.ingresos
      (d.filter (fun x => decide (x.vendedor = s)))), ?_, ?_⟩
  · simp only [update_seller_performance_card, if_neg hs]
    rw [if_neg (by simpa [List.isEmpty_iff] using hne)]
  · have hperm :=
      (List.perm_insertionSort revDesc
        (groupbySum strLe VentaI.producto VentaI.ingresos
          (d.filter (fun x => decide (x.vendedor = s))))).map Prod.snd
    rw [hperm.sum_eq, sum_groupbySum]

/-- Witness for C9: seller "S1" of the worked example. -/
theorem claim_C9_seller_card_conservation_witness :
    (("S1" : String) ≠ "" ∧ "S1" ∈ (preprocess exRows).map VentaI.vendedor) ∧
      ∃ tot ref prods,
        update_seller_performance_card (preprocess exRows) "S1"
            = SellerCard.card "S1" tot ref prods ∧
          (prods.map Prod.snd).sum = tot :=
  ⟨⟨by decide, by decide⟩,
    claim_C9_seller_card_conservation (preprocess exRows) "S1" (by decide) (by decide)⟩

/-! ### C7: callbacks render freshly-recomputed aggregates -/

theorem rankFrom_proj (n : Nat) (l : List (String × Int)) :
    (rankFrom n l).map (fun t => (t.1, t.2.1)) = l := by
  induction l generalizing n with
  | nil => rfl
  | cons p ps ih => simp [rankFrom, ih]

/-- C7: what each dummy-input callback renders coincides with the aggregate
view freshly recomputed from the raw table at the time of the call (the
table is immutable after load, so the module-level frames computed at
startup and the inline recomputation of the bar-chart callback agree with
a fresh recomputation). -/
theorem claim_C7_fresh_recompute (d : List VentaI) :
    update_ingresos_por_producto_graph d = specFreshPerProductRevenue d ∧
      update_ingresos_por_vendedor_pie d = specFreshPerSellerRevenue d ∧
      update_daily_sales_line d = specFreshDailyTotals d ∧
      (update_ingresos_por_vendedor_bar d).map (fun t => (t.1, t.2.1))
        = specFreshPerSellerRevenue d := by
  refine ⟨rfl, ?_, rfl, ?_⟩
  · rw [update_ingresos_por_vendedor_pie, ingresos_por_vendedor, List.map_map]
    exact (List.map_congr_left (fun p _ => rfl)).trans (List.map_id _)
  · rw [update_ingresos_por_vendedor_bar, ingresos_por_vendedor_ranked, rankFrom_proj]
    rfl

/-! ### Dense-rank lemmas and C2 -/

theorem filter_length_mono (l : List Int) (x y : Int) (hxy : x ≤ y) :
    ((l.filter (fun z => decide (y < z))).length) ≤
      ((l.filter (fun z => decide (x < z))).length) := by
  induction l with
  | nil => simp
  | cons a l ih =>
    by_cases hya : y < a
    · have hxa : x < a := lt_of_le_of_lt hxy hya
      simp [List.filter_cons, hya, hxa]
      omega
    · by_cases hxa : x < a
      · simp [List.filter_cons, hya, hxa]
        omega
      · simp [List.filter_cons, hya, hxa]
        exact ih

theorem filter_length_mono_lt (l : List Int) (x y : Int) (hy : y ∈ l) (hxy : x < y) :
    ((l.filter (fun z => decide (y < z))).length) <
      ((l.filter (fun z => decide (x < z))).length) := by
  induction l with
  | nil => cases hy
  | cons a l ih =>
    rcases List.mem_cons.mp hy with rfl | hy'
    · have hna : ¬ y < y := lt_irrefl y
      have hmono := filter_length_mono l x y (le_of_lt hxy)
      simp [List.filter_cons, hxy, hna]
      omega
    · by_cases hya : y < a
      · have hxa : x < a := lt_trans hxy hya
        have hih := ih hy'
        simp [List.filter_cons, hya, hxa]
        omega
      · by_cases hxa : x < a
        · have hih := ih hy'
          simp [List.filter_cons, hya, hxa]
          omega
        · simp [List.filter_cons, hya, hxa]
          exact ih hy'

/-- The dense rank (descending) is strictly antitone on values occurring in
the column. -/
theorem denseRank_lt (revs : List Int) (x y : Int) (hy : y ∈ revs) (hxy : x < y) :
    denseRank revs y < denseRank revs x := by
  have h1 : y ∈ uniq revs := (mem_uniq y revs).mpr hy
  have h2 := filter_length_mono_lt (uniq revs) x y h1 hxy
  simp only [denseRank]
  omega

theorem exists_min_of_ne_nil (l : List Int) (h : l ≠ []) :
    ∃ y ∈ l, ∀ z ∈ l, y ≤ z := by
  induction l with
  | nil => exact absurd rfl h
  | cons a t ih =>
    cases t with
    | nil =>
      refine ⟨a, List.mem_cons_self _ _, ?_⟩
      intro z hz
      rcases List.mem_cons.mp hz with rfl | hz'
      · exact le_refl _
      · cases hz'
    | cons b u =>
      obtain ⟨y, hy, hmin⟩ := ih (by simp)
      by_cases hay : a ≤ y
      · refine ⟨a, List.mem_cons_self _ _, ?_⟩
        intro z hz
        rcases List.mem_cons.mp hz with rfl | hz'
        · exact le_refl _
        · exact le_trans hay (hmin z hz')
      · refine ⟨y, List.mem_cons_of_mem _ hy, ?_⟩
        intro z hz
        rcases List.mem_cons.mp hz with rfl | hz'
        · exact le_of_lt (not_le.mp hay)
        · exact hmin z hz'

theorem length_filter_add {α : Type} (l : List α) (p : α → Bool) :
    (l.filter p).length + (l.filter (fun a => !(p a))).length = l.length := by
  induction l with
  | nil => rfl
  | cons a l ih =>
    by_cases h : p a = true
    · simp [List.filter_cons, h]
      omega
    · have h' : p a = false := by simpa using h
      simp [List.filter_cons, h']
      omega

theorem filter_eq_singleton {α : Type} (l : List α) (p : α → Bool) (y : α)
    (hnd : l.Nodup) (hy : y ∈ l) (hpy : p y = true)
    (hall : ∀ z ∈ l, p z = true → z = y) :
    l.filter p = [y] := by
  induction l with
  | nil => cases hy
  | cons a l ih =>
    rcases List.nodup_cons.mp hnd with ⟨ha, hnd'⟩
    rcases List.mem_cons.mp hy with rfl | hy'
    · have hnil : l.filter p = [] := by
        rw [List.filter_eq_nil_iff]
        intro z hz hpz
        have hzy := hall z (List.mem_cons_of_mem _ hz) hpz
        exact ha (hzy ▸ hz)
      simp [List.filter_cons, hpy, hnil]
    · have hpa : p a = false := by
        rcases Bool.eq_false_or_eq_true (p a) with h | h
        · exact absurd hy' (by rw [← hall a (List.mem_cons_self _ _) h]; exact ha)
        · exact h
      rw [List.filter_cons_of_neg (by simp [hpa])]
      exact ih hnd' hy' (fun z hz hpz => hall z (List.mem_cons_of_mem _ hz) hpz)

/-- No gaps: any rank of two or more is preceded by a value of rank exactly
one smaller, occurring in the column. -/
theorem denseRank_pred_exists (revs : List Int) (x : Int) (hx2 : 2 ≤ denseRank revs x) :
    ∃ y ∈ revs, x < y ∧ denseRank revs y + 1 = denseRank revs x := by
  have hSne : (uniq revs).filter (fun z => decide (x < z)) ≠ [] := by
    intro hnil
    rw [denseRank, hnil] at hx2
    simp only [List.length_nil] at hx2
    omega
  obtain ⟨y, hyS, hymin⟩ := exists_min_of_ne_nil _ hSne
  have hyU : y ∈ uniq revs := (List.mem_filter.mp hyS).1
  have hxy : x < y := by
    have := (List.mem_filter.mp hyS).2
    simpa using this
  refine ⟨y, (mem_uniq y revs).mp hyU, hxy, ?_⟩
  have hfilter : (uniq revs).filter (fun z => decide (y < z)) =
      ((uniq revs).filter (fun z => decide (x < z))).filter (fun z => decide (y < z)) := by
    rw [List.filter_filter]
    apply List.filter_congr
    intro z _
    by_cases h : y < z
    · have hxz : x < z := lt_trans hxy h
      simp [h, hxz]
    · simp [h]
  have hsplit := length_filter_add ((uniq revs).filter (fun z => decide (x < z)))
      (fun z => decide (y < z))
  have hone : ((uniq revs).filter (fun z => decide (x < z))).filter
      (fun z => !(decide (y < z))) = [y] := by
    apply filter_eq_singleton _ _ y (List.Nodup.filter _ (nodup_uniq revs)) hyS
    · simp
    · intro z hzS hz
      have hzy : ¬ y < z := by simpa using hz
      exact le_antisymm (not_lt.mp hzy) (hymin z hzS)
  rw [hone] at hsplit
  simp only [List.length_cons, List.length_nil] at hsplit
  simp only [denseRank, hfilter]
  omega

/-- Each row of the seller frame consists of a row of the revenue-sorted
base frame together with the dense rank of its revenue. -/
theorem mem_ingresos_por_vendedor {d : List VentaI} {p : String × Int × Nat}
    (hp : p ∈ ingresos_por_vendedor d) :
    (p.1, p.2.1) ∈ ingresos_por_vendedor_base d ∧
      p.2.2 = denseRank ((ingresos_por_vendedor_base d).map Prod.snd) p.2.1 := by
  rcases List.mem_map.mp hp with ⟨q, hq, rfl⟩
  exact ⟨hq, rfl⟩

theorem mem_ingresos_por_vendedor_of_rev {d : List VentaI} {y : Int}
    (hy : y ∈ (ingresos_por_vendedor_base d).map Prod.snd) :
    ∃ r ∈ ingresos_por_vendedor d, r.2.1 = y ∧
      r.2.2 = denseRank ((ingresos_por_vendedor_base d).map Prod.snd) y := by
  rcases List.mem_map.mp hy with ⟨q, hq, rfl⟩
  exact ⟨(q.1, q.2, denseRank ((ingresos_por_vendedor_base d).map Prod.snd) q.2),
    List.mem_map.mpr ⟨q, hq, rfl⟩, rfl, rfl⟩

theorem mem_rankFrom {n : Nat} {l : List (String × Int)} {r : String × Int × Nat}
    (hr : r ∈ rankFrom n l) : (r.1, r.2.1) ∈ l ∧ n ≤ r.2.2 := by
  induction l generalizing n with
  | nil => cases hr
  | cons p ps ih =>
    simp only [rankFrom] at hr
    rcases List.mem_cons.mp hr with rfl | hr'
    · exact ⟨List.mem_cons_self _ _, le_refl _⟩
    · obtain ⟨h1, h2⟩ := ih hr'
      exact ⟨List.mem_cons_of_mem _ h1, le_trans (Nat.le_succ n) h2⟩

/-- The positional ranks of the bar chart are strictly increasing along the
frame, so tied revenues never share a rank there. -/
theorem rankFrom_pairwise_rank (n : Nat) (l : List (String × Int)) :
    List.Pairwise (fun a b => a.2.2 < b.2.2) (rankFrom n l) := by
  induction l generalizing n with
  | nil => exact List.Pairwise.nil
  | cons p ps ih =>
    simp only [rankFrom]
    refine List.Pairwise.cons ?_ (ih (n + 1))
    intro b hb
    have h2 := (mem_rankFrom hb).2
    show n < b.2.2
    omega

theorem rankFrom_mono (l : List (String × Int)) (hs : List.Pairwise revDesc l) :
    ∀ n, ∀ p ∈ rankFrom n l, ∀ q ∈ rankFrom n l, p.2.2 ≤ q.2.2 → q.2.1 ≤ p.2.1 := by
  induction l with
  | nil => intro n p hp; cases hp
  | cons a t ih =>
    rcases List.pairwise_cons.mp hs with ⟨ha, ht⟩
    intro n p hp q hq hle
    simp only [rankFrom] at hp hq
    rcases List.mem_cons.mp hp with rfl | hp' <;>
      rcases List.mem_cons.mp hq with rfl | hq'
    · exact le_refl _
    · exact ha (q.1, q.2.1) (mem_rankFrom hq').1
    · have h1 := (mem_rankFrom hp').2
      have hle' : p.2.2 ≤ n := hle
      omega
    · exact ih ht (n + 1) p hp' q hq' hle

/-- C2 counterexample: with two sellers tied at total revenue 1, the
ranking bar chart of lines 176-182 assigns them the distinct ranks 1 and 2,
so the claim that every place a seller rank is computed gives tied sellers
a shared (dense) rank is false. -/
theorem claim_C2_counterexample :
    ingresos_por_vendedor_ranked (preprocess exTie) = [("A", 1, 1), ("B", 1, 2)] ∧
      ¬ (∀ p ∈ ingresos_por_vendedor_ranked (preprocess exTie),
          ∀ q ∈ ingresos_por_vendedor_ranked (preprocess exTie),
            p.2.1 = q.2.1 → p.2.2 = q.2.2) :=
  ⟨by decide, by decide⟩

/-- C2 corrected: the module-level seller ranking (`Rank` of line 36) is
dense — tied revenues share a rank, every rank is at least 1, and any rank
of two or more is preceded by an entry ranked exactly one smaller — and
revenue is non-increasing as rank increases; the bar-chart callback of
lines 176-182, by contrast, assigns strictly increasing positional ranks
(tied revenues get distinct ranks), with revenue still non-increasing as
its rank increases. -/
theorem claim_C2_corrected_ranking (d : List VentaI)
    (p q : String × Int × Nat) (hp : p ∈ ingresos_por_vendedor d)
    (hq : q ∈ ingresos_por_vendedor d)
    (p' q' : String × Int × Nat) (hp' : p' ∈ ingresos_por_vendedor_ranked d)
    (hq' : q' ∈ ingresos_por_vendedor_ranked d) :
    (p.2.1 = q.2.1 → p.2.2 = q.2.2) ∧
      (p.2.2 ≤ q.2.2 → q.2.1 ≤ p.2.1) ∧
      1 ≤ p.2.2 ∧
      (2 ≤ p.2.2 → ∃ r ∈ ingresos_por_vendedor d, r.2.2 + 1 = p.2.2) ∧
      (p'.2.2 ≤ q'.2.2 → q'.2.1 ≤ p'.2.1) ∧
      List.Pairwise (fun a b => a.2.2 < b.2.2) (ingresos_por_vendedor_ranked d) := by
  obtain ⟨hpb, hpr⟩ := mem_ingresos_por_vendedor hp
  obtain ⟨hqb, hqr⟩ := mem_ingresos_por_vendedor hq
  have hqrev : q.2.1 ∈ (ingresos_por_vendedor_base d).map Prod.snd :=
    List.mem_map.mpr ⟨(q.1, q.2.1), hqb, rfl⟩
  refine ⟨?_, ?_, ?_, ?_, ?_, ?_⟩
  · intro hrev
    rw [hpr, hqr, hrev]
  · intro hle
    by_contra hcon
    have hlt : p.2.1 < q.2.1 := not_le.mp hcon
    have hd := denseRank_lt _ p.2.1 q.2.1 hqrev hlt
    rw [← hpr, ← hqr] at hd
    omega
  · rw [hpr]
    simp only [denseRank]
    omega
  · intro h2
    rw [hpr] at h2
    obtain ⟨y, hyrev, _, hsum⟩ := denseRank_pred_exists _ p.2.1 h2
    obtain ⟨r, hr, _, hrrank⟩ := mem_ingresos_por_vendedor_of_rev hyrev
    exact ⟨r, hr, by rw [hrrank, hsum, ← hpr]⟩
  · intro hle
    exact rankFrom_mono _ (List.sorted_insertionSort revDesc _) 1 p' hp' q' hq' hle
  · exact rankFrom_pairwise_rank 1 _

/-- Witness for C2's corrected theorem on the tied-revenue example. -/
theorem claim_C2_corrected_ranking_witness :
    (((("A", 1, 1) : String × Int × Nat) ∈ ingresos_por_vendedor (preprocess exTie)) ∧
      ((("B", 1, 1) : String × Int × Nat) ∈ ingresos_por_vendedor (preprocess exTie)) ∧
      ((("A", 1, 1) : String × Int × Nat) ∈ ingresos_por_vendedor_ranked (preprocess exTie)) ∧
      ((("B", 1, 2) : String × Int × Nat) ∈ ingresos_por_vendedor_ranked (preprocess exTie))) ∧
      (((("A", 1, 1) : String × Int × Nat).2.1 = (("B", 1, 1) : String × Int × Nat).2.1 →
          (("A", 1, 1) : String × Int × Nat).2.2 = (("B", 1, 1) : String × Int × Nat).2.2) ∧
        ((("A", 1, 1) : String × Int × Nat).2.2 ≤ (("B", 1, 1) : String × Int × Nat).2.2 →
          (("B", 1, 1) : String × Int × Nat).2.1 ≤ (("A", 1, 1) : String × Int × Nat).2.1) ∧
        1 ≤ (("A", 1, 1) : String × Int × Nat).2.2 ∧
        (2 ≤ (("A", 1, 1) : String × Int × Nat).2.2 →
          ∃ r ∈ ingresos_por_vendedor (preprocess exTie),
            r.2.2 + 1 = (("A", 1, 1) : String × Int × Nat).2.2) ∧
        ((("A", 1, 1) : String × Int × Nat).2.2 ≤ (("B", 1, 2) : String × Int × Nat).2.2 →
          (("B", 1, 2) : String × Int × Nat).2.1 ≤ (("A", 1, 1) : String × Int × Nat).2.1) ∧
        List.Pairwise (fun a b => a.2.2 < b.2.2)
          (ingresos_por_vendedor_ranked (preprocess exTie))) :=
  ⟨⟨by decide, by decide, by decide, by decide⟩,
    claim_C2_corrected_ranking (preprocess exTie) ("A", 1, 1) ("B", 1, 1)
      (by decide) (by decide) ("A", 1, 1) ("B", 1, 2) (by decide) (by decide)⟩

end DashVentas
